import Mathlib

/-
Verification of the trace-pipe reader in src/trace.c: the k-way chronological
merge across per-CPU ring buffers (__find_next_entry), the blocking wait
protocol (trace_wait_pipe), the partial-line-safe format loop and delivery
path (trace_read_pipe), and the event-class registry lifecycle
(print_event_init / find_print_event / print_event_exit).

The per-CPU ring buffer store and the trace_seq output buffer are external
kernel collaborators; they are modelled at their interface as described in
the specification (a FIFO list of timestamped records per possible CPU with
peek / consume / emptiness / wait, and a fixed-capacity append-only text
buffer with read/write cursors and an overflow flag).
-/

set_option autoImplicit false

namespace Trace

/-- PAGE_SIZE of the target platform; both the clamp bound used by
trace_read_pipe and the capacity of the trace_seq output buffer. -/
def PAGE_SIZE : Nat := 4096

/-- One record as held by a per-CPU ring buffer: the event id stored in the
entry payload, the timestamp the ring buffer reports for it, and the
lost-event count the ring buffer reports alongside a peek on that CPU. -/
structure Record where
  id : Nat
  ts : Nat
  lost : Nat
deriving DecidableEq, Repr

/-- Modelled from the spec: the external per-CPU Ring Buffer Store, one FIFO
list of records per possible CPU, oldest record first. -/
structure Store where
  cpus : List (List Record)
deriving DecidableEq, Repr

/-- is_trace_empty of trace.c: scans every possible CPU and reports whether
every per-CPU buffer is empty. -/
def is_trace_empty (s : Store) : Bool :=
  s.cpus.all List.isEmpty

/-- Modelled from the spec: ring_buffer_peek on CPU c, the oldest unconsumed
record of that CPU if any (non-destructive). -/
def headAt (l : List (List Record)) (c : Nat) : Option Record :=
  (l.get? c).bind List.head?

/-- Modelled from the spec: ring_buffer_consume on CPU c, destructively
removing the oldest record of that CPU. -/
def consume_cpu (s : Store) (c : Nat) : Store :=
  ⟨s.cpus.set c ((s.cpus.getD c []).tail)⟩

/-- The out-parameters of __find_next_entry: the selected record (NULL when
every CPU is empty), the CPU it came from (-1 when none), its timestamp and
its lost-event count. -/
structure FindResult where
  next : Option Record
  next_cpu : Int
  next_ts : Nat
  next_lost : Nat
deriving DecidableEq, Repr

/-- The scan loop of __find_next_entry: for each possible CPU in index order,
skip it when its buffer is empty, otherwise peek its oldest record and take
it as the new candidate exactly when there is no candidate yet or its
timestamp is strictly smaller than the candidate's. -/
def findFrom : Nat → List (List Record) → FindResult → FindResult
  | _, [], acc => acc
  | cpu, buf :: rest, acc =>
    match buf with
    | [] => findFrom (cpu + 1) rest acc
    | ent :: _ =>
      if acc.next = none ∨ ent.ts < acc.next_ts then
        findFrom (cpu + 1) rest ⟨some ent, Int.ofNat cpu, ent.ts, ent.lost⟩
      else
        findFrom (cpu + 1) rest acc

/-- __find_next_entry of trace.c: scan all possible CPUs starting from the
initial state next = NULL, next_cpu = -1, next_ts = 0, next_lost = 0. -/
def find_next_entry (s : Store) : FindResult :=
  findFrom 0 s.cpus ⟨none, -1, 0, 0⟩

/-- Repeatedly select the globally earliest record with __find_next_entry and
consume it from its CPU, listing the records in consumption order; this is
the store-side effect of repeated read calls whose formatter always fits. -/
def drainFuel : Nat → Store → List Record
  | 0, _ => []
  | fuel + 1, s =>
    let r := find_next_entry s
    match r.next with
    | none => []
    | some e => e :: drainFuel fuel (consume_cpu s r.next_cpu.toNat)

/-- Every per-CPU buffer lists its records in non-decreasing timestamp order
(ring buffers are written in time order on each CPU). -/
def cpusSorted (s : Store) : Prop :=
  ∀ buf ∈ s.cpus, List.Chain' (fun a b => a.ts ≤ b.ts) buf

instance (s : Store) : Decidable (cpusSorted s) :=
  inferInstanceAs (Decidable (∀ buf ∈ s.cpus, List.Chain' (fun a b : Record => a.ts ≤ b.ts) buf))

/-- The three print_line_t outcomes a formatter can return. -/
inductive PrintLine where
  | TRACE_TYPE_HANDLED
  | TRACE_TYPE_PARTIAL_LINE
  | TRACE_TYPE_NO_CONSUME
deriving DecidableEq, Repr

/-- Modelled from the spec: the trace_seq output buffer, a fixed-capacity
append-only text buffer with committed content `buf` (whose length is the
write position seq.len), capacity `size`, read cursor `readpos` and the
overflow flag `full`. -/
structure TraceSeq where
  buf : List Char
  size : Nat
  readpos : Nat
  full : Bool
deriving DecidableEq, Repr

/-- trace_seq_init: an empty PAGE_SIZE-capacity buffer with cleared cursors
and overflow flag. -/
def trace_seq_init : TraceSeq :=
  ⟨[], PAGE_SIZE, 0, false⟩

/-- trace_seq_used: the amount of committed text, capped by the capacity. -/
def trace_seq_used (s : TraceSeq) : Nat :=
  min s.buf.length s.size

/-- trace_seq_has_overflowed: the overflow flag. -/
def trace_seq_has_overflowed (s : TraceSeq) : Bool :=
  s.full

/-- Modelled from the spec: trace_seq_printf. A no-op once the buffer has
overflowed; commits the text when it fits together with its terminating NUL
byte (vsnprintf semantics: committed content never exceeds size - 1);
otherwise commits nothing and sets the overflow flag. -/
def trace_seq_printf (s : TraceSeq) (str : List Char) : TraceSeq :=
  if s.full then s
  else if s.buf.length + str.length < s.size then { s with buf := s.buf ++ str }
  else { s with full := true }

/-- trace_handle_return: TRACE_TYPE_PARTIAL_LINE when the seq has overflowed,
TRACE_TYPE_HANDLED otherwise. -/
def trace_handle_return (s : TraceSeq) : PrintLine :=
  if trace_seq_has_overflowed s then PrintLine.TRACE_TYPE_PARTIAL_LINE
  else PrintLine.TRACE_TYPE_HANDLED

/-- One registered print event class: the id assigned at startup and the
formatter bound to it. -/
structure EventClass where
  id : Nat
  format : TraceSeq → Record → TraceSeq × PrintLine

/-- find_print_event of trace.c: the id-th entry of the class table when id
is below the number of registered classes, NULL otherwise. -/
def find_print_event (classes : List EventClass) (id : Nat) : Option EventClass :=
  if id < classes.length then classes.get? id else none

/-- The fallback text printed for an unregistered event id. -/
def unknown_id_line (id : Nat) : List Char :=
  ("Unknown id " ++ toString id ++ "\n").toList

/-- print_trace_fmt_line of trace.c: look the current record's id up in the
class table; report a partial line when the seq has already overflowed;
otherwise run the class formatter, or print the generic "Unknown id" line
and report via trace_handle_return when no class is registered for the id. -/
def print_trace_fmt_line (classes : List EventClass) (seq : TraceSeq)
    (ent : Record) : TraceSeq × PrintLine :=
  let cls := find_print_event classes ent.id
  if trace_seq_has_overflowed seq then (seq, PrintLine.TRACE_TYPE_PARTIAL_LINE)
  else
    match cls with
    | some c => c.format seq ent
    | none =>
      let seq' := trace_seq_printf seq (unknown_id_line ent.id)
      (seq', trace_handle_return seq')

/-- The format loop of trace_read_pipe (lines 235-259): while there is a next
entry, save the write position, format the entry; on a partial line restore
the write position and stop; otherwise consume the record (unless the
formatter said not to) and stop once the used amount reaches cnt. -/
def format_loop (classes : List EventClass) :
    Nat → Store → TraceSeq → Nat → Store × TraceSeq
  | 0, s, seq, _ => (s, seq)
  | fuel + 1, s, seq, cnt =>
    let r := find_next_entry s
    match r.next with
    | none => (s, seq)
    | some _ =>
      let save_len := seq.buf.length
      let fr := print_trace_fmt_line classes seq (r.next.getD ⟨0, 0, 0⟩)
      if fr.2 = PrintLine.TRACE_TYPE_PARTIAL_LINE then
        (s, { fr.1 with buf := fr.1.buf.take save_len })
      else
        let s' := if fr.2 = PrintLine.TRACE_TYPE_NO_CONSUME then s
                  else consume_cpu s r.next_cpu.toNat
        if cnt ≤ trace_seq_used fr.1 then (s', fr.1)
        else format_loop classes fuel s' fr.1 cnt

/-- Modelled from the spec: trace_seq_to_user / seq_buf_to_user. Returns
-EBUSY when nothing unflushed remains, else copies min(used - readpos, cnt)
bytes to the caller, advances the read cursor and returns the count. -/
def trace_seq_to_user (s : TraceSeq) (cnt : Nat) : Int × TraceSeq :=
  let used := trace_seq_used s
  if used ≤ s.readpos then (-16, s)
  else
    let n := min (used - s.readpos) cnt
    (Int.ofNat n, { s with readpos := s.readpos + n })

/-- trace_wait_pipe of trace.c. While the store is globally empty: a
non-blocking caller immediately gets -EAGAIN; otherwise the call blocks in
the ring buffer wait primitive. The oracle `wait` gives the outcome of the
n-th wait: its return value and the store as the producers have left it on
wake; a non-zero return aborts the loop and is returned. When the store is
non-empty the call returns 1. The result carries the store and the number of
wait invocations performed; `none` means the fuel ran out while blocked. -/
def trace_wait_pipe (nonblock : Bool) (wait : Nat → Int × Store) :
    Nat → Store → Nat → Option (Int × Store × Nat)
  | 0, _, _ => none
  | fuel + 1, s, w =>
    if is_trace_empty s then
      if nonblock then some (-11, s, w)
      else
        let rs := wait w
        if rs.1 ≠ 0 then some (rs.1, rs.2, w + 1)
        else trace_wait_pipe nonblock wait fuel rs.2 (w + 1)
    else some (1, s, w)

/-- The outcome of one trace_read_pipe call: the returned value, the session
seq as left for the next call, the store as left, and how many times the
call blocked in the wait primitive. -/
structure ReadResult where
  sret : Int
  seq : TraceSeq
  store : Store
  waits : Nat
deriving Repr

/-- The waitagain loop of trace_read_pipe (lines 213-272). Each iteration:
return (with the pending -EBUSY) when a fatal signal is pending; wait for
data (propagating a non-positive wait result); re-check emptiness and return
0 if still empty; clamp cnt to PAGE_SIZE - 1; reset the seq; run the format
loop; copy to the user; reset the seq once fully drained; retry when nothing
was copied. `none` means the fuel ran out. -/
def read_loop (classes : List EventClass) (nonblock fatal : Bool)
    (wait : Nat → Int × Store) (fuelW fuelF : Nat) :
    Nat → Store → TraceSeq → Nat → Nat → Option ReadResult
  | 0, _, _, _, _ => none
  | fuelR + 1, s, seq, cnt, w =>
    if fatal then some ⟨-16, seq, s, w⟩
    else
      match trace_wait_pipe nonblock wait fuelW s w with
      | none => none
      | some (ret, s1, w1) =>
        if ret ≤ 0 then some ⟨ret, seq, s1, w1⟩
        else if is_trace_empty s1 then some ⟨0, seq, s1, w1⟩
        else
          let cnt1 := if PAGE_SIZE ≤ cnt then PAGE_SIZE - 1 else cnt
          let p := format_loop classes fuelF s1 trace_seq_init cnt1
          let q := trace_seq_to_user p.2 cnt1
          let seq2 := if trace_seq_used q.2 ≤ q.2.readpos then trace_seq_init else q.2
          if q.1 = -16 then
            read_loop classes nonblock fatal wait fuelW fuelF fuelR p.1 seq2 cnt1 w1
          else some ⟨q.1, seq2, p.1, w1⟩

/-- trace_read_pipe of trace.c. First flush any unflushed previously
formatted text to the caller and return immediately when any was copied;
otherwise reset the seq and enter the waitagain loop. -/
def trace_read_pipe (classes : List EventClass) (nonblock fatal : Bool)
    (wait : Nat → Int × Store) (fuelW fuelF fuelR : Nat)
    (s : Store) (seq : TraceSeq) (cnt : Nat) : Option ReadResult :=
  let q := trace_seq_to_user seq cnt
  if q.1 ≠ -16 then some ⟨q.1, q.2, s, 0⟩
  else read_loop classes nonblock fatal wait fuelW fuelF fuelR s trace_seq_init cnt 0

/-- PRINT_EVENT_ID_MAX of trace.c for an id field of the given byte width:
(1 << (bytes * 8)) - 1. -/
def PRINT_EVENT_ID_MAX (idBytes : Nat) : Nat :=
  2 ^ (idBytes * 8) - 1

/-- The id-assignment loop of print_event_init: the descriptors in
registration order receive sequential ids starting from the given counter. -/
def assign_ids_from (i : Nat) : List EventClass → List EventClass
  | [] => []
  | cls :: rest => { cls with id := i } :: assign_ids_from (i + 1) rest

/-- All registered descriptors with their startup-assigned ids (counter
starting at 0). -/
def assign_ids (classes : List EventClass) : List EventClass :=
  assign_ids_from 0 classes

/-- Whether the external startup collaborators succeed: the kallsyms lookup
of the wait primitive, the ring buffer allocation, the proc directory
creation and the proc node creation. -/
structure InitEnv where
  lookup_ok : Bool
  alloc_ok : Bool
  mkdir_ok : Bool
  create_ok : Bool
deriving DecidableEq, Repr

/-- The externally visible steps print_event_init performs, in order. -/
inductive InitStep where
  | SAlloc
  | SPublishDir
  | SPublishNode
  | SRegister
  | SUnpublish
  | SFree
deriving DecidableEq, Repr

/-- The outcome of print_event_init: its return value, the class table as
left (ids assigned on success), whether the ring buffer store and the proc
interface are still live when it returns, and the ordered list of externally
visible steps it performed. -/
structure InitResult where
  ret : Int
  classes : List EventClass
  store_allocated : Bool
  proc_published : Bool
  steps : List InitStep

/-- print_event_init of trace.c: succeed doing nothing when no class is
registered; fail with -EINVAL when the class count reaches
PRINT_EVENT_ID_MAX; fail with -ENODEV when the wait primitive cannot be
resolved; allocate the ring buffer (-ENOMEM on failure); create the proc
directory and node, rolling back (remove the proc subtree, free the ring
buffer) with -ENOMEM when either fails; finally assign sequential ids to the
classes and bind them to the store. -/
def print_event_init (idBytes : Nat) (classes : List EventClass)
    (env : InitEnv) : InitResult :=
  let num_class := classes.length
  if num_class = 0 then ⟨0, classes, false, false, []⟩
  else if PRINT_EVENT_ID_MAX idBytes ≤ num_class then ⟨-22, classes, false, false, []⟩
  else if env.lookup_ok = false then ⟨-19, classes, false, false, []⟩
  else if env.alloc_ok = false then ⟨-12, classes, false, false, []⟩
  else if env.mkdir_ok = false then
    ⟨-12, classes, false, false, [InitStep.SAlloc, InitStep.SFree]⟩
  else if env.create_ok = false then
    ⟨-12, classes, false, false,
      [InitStep.SAlloc, InitStep.SPublishDir, InitStep.SUnpublish, InitStep.SFree]⟩
  else
    ⟨0, assign_ids classes, true, true,
      [InitStep.SAlloc, InitStep.SPublishDir, InitStep.SPublishNode, InitStep.SRegister]⟩

/-- An InitEnv in which every external startup collaborator succeeds. -/
def envAllOk : InitEnv := ⟨true, true, true, true⟩

/-- A concrete event class whose formatter emits nothing and reports the line
handled; used to instantiate universally quantified statements. -/
def cls0 : EventClass :=
  ⟨0, fun s _ => (s, PrintLine.TRACE_TYPE_HANDLED)⟩

/-- A concrete two-CPU store: CPU 0 holds a record at ts = 5 then one at
ts = 7, CPU 1 holds one record at ts = 3. -/
def store0 : Store :=
  ⟨[[⟨1, 5, 0⟩, ⟨1, 7, 0⟩], [⟨2, 3, 4⟩]]⟩

/-- The empty two-CPU store. -/
def storeEmpty : Store := ⟨[[], []]⟩

/-- A one-CPU store holding a single record with id 0 at ts = 5. -/
def storeOne : Store := ⟨[[⟨0, 5, 0⟩]]⟩

/-- A one-CPU store holding a single record with the unregistered id 5. -/
def storeUnknown : Store := ⟨[[⟨5, 9, 0⟩]]⟩

/-- A trace_seq of capacity 1, too small for any formatted line. -/
def seq1cap : TraceSeq := ⟨[], 1, 0, false⟩

/-- A trace_seq holding one unflushed byte of previously formatted text. -/
def seqLeft : TraceSeq := ⟨[Char.ofNat 97], PAGE_SIZE, 0, false⟩

/-- A table of 255 registered event classes. -/
def classes255 : List EventClass := List.replicate 255 cls0

/-- A formatter respects the trace_seq discipline: it never changes the
capacity and only ever grows the committed content within size - 1 (the
bound every trace_seq_printf-built formatter obeys, a vsnprintf reserving
one byte for the terminating NUL). -/
def good_format (f : TraceSeq → Record → TraceSeq × PrintLine) : Prop :=
  ∀ seq ent, ((f seq ent).1).size = seq.size ∧
    ((f seq ent).1).buf.length ≤ max seq.buf.length (seq.size - 1)

/-- Every registered formatter respects the trace_seq discipline. -/
def good_classes (classes : List EventClass) : Prop :=
  ∀ cls ∈ classes, good_format cls.format

/-- The scan of findFrom starting from a candidate a (with matching ts and
lost fields) either keeps a, in which case no oldest record in the remaining
CPUs beats a's timestamp, or selects the head of the j-th remaining CPU,
which strictly beats a and every CPU scanned before it and is no later than
every oldest record in the remaining CPUs. -/
theorem findFrom_some_spec (l : List (List Record)) :
    ∀ (i : Nat) (a : Record) (c : Int),
      (findFrom i l ⟨some a, c, a.ts, a.lost⟩ = ⟨some a, c, a.ts, a.lost⟩ ∧
        ∀ k h, headAt l k = some h → a.ts ≤ h.ts) ∨
      (∃ j e tl, l.get? j = some (e :: tl) ∧
        findFrom i l ⟨some a, c, a.ts, a.lost⟩ = ⟨some e, Int.ofNat (i + j), e.ts, e.lost⟩ ∧
        e.ts < a.ts ∧
        (∀ k h, headAt l k = some h → e.ts ≤ h.ts) ∧
        (∀ k h, k < j → headAt l k = some h → e.ts < h.ts)) := by
  induction l with
  | nil =>
    intro i a c
    left
    exact ⟨rfl, by intro k h hk; simp [headAt] at hk⟩
  | cons b rest ih =>
    intro i a c
    cases b with
    | nil =>
      rcases ih (i + 1) a c with ⟨heq, hall⟩ | ⟨j, e, tl, hget, heq, hlt, hall, hbef⟩
      · left
        refine ⟨by simpa [findFrom] using heq, ?_⟩
        intro k h hk
        cases k with
        | zero => simp [headAt] at hk
        | succ k => exact hall k h hk
      · right
        refine ⟨j + 1, e, tl, hget, ?_, hlt, ?_, ?_⟩
        · have h2 : i + 1 + j = i + (j + 1) := by omega
          rw [← h2]
          simpa [findFrom] using heq
        · intro k h hk
          cases k with
          | zero => simp [headAt] at hk
          | succ k => exact hall k h hk
        · intro k h hklt hk
          cases k with
          | zero => simp [headAt] at hk
          | succ k => exact hbef k h (by omega) hk
    | cons e' tl' =>
      by_cases hcond : e'.ts < a.ts
      · have hred : findFrom i ((e' :: tl') :: rest) ⟨some a, c, a.ts, a.lost⟩ =
            findFrom (i + 1) rest ⟨some e', Int.ofNat i, e'.ts, e'.lost⟩ := by
          simp [findFrom, hcond]
        rcases ih (i + 1) e' (Int.ofNat i) with ⟨heq, hall⟩ | ⟨j, e, tl, hget, heq, hlt, hall, hbef⟩
        · right
          refine ⟨0, e', tl', rfl, ?_, hcond, ?_, ?_⟩
          · rw [hred, heq]
            simp
          · intro k h hk
            cases k with
            | zero =>
              have he : e' = h := by simpa [headAt] using hk
              subst he
              exact Nat.le_refl _
            | succ k => exact hall k h hk
          · intro k h hklt hk
            exact absurd hklt (Nat.not_lt_zero k)
        · right
          refine ⟨j + 1, e, tl, hget, ?_, Nat.lt_trans hlt hcond, ?_, ?_⟩
          · have h2 : i + 1 + j = i + (j + 1) := by omega
            rw [hred, heq, h2]
          · intro k h hk
            cases k with
            | zero =>
              have he : e' = h := by simpa [headAt] using hk
              subst he
              exact Nat.le_of_lt hlt
            | succ k => exact hall k h hk
          · intro k h hklt hk
            cases k with
            | zero =>
              have he : e' = h := by simpa [headAt] using hk
              subst he
              exact hlt
            | succ k => exact hbef k h (by omega) hk
      · have hred : findFrom i ((e' :: tl') :: rest) ⟨some a, c, a.ts, a.lost⟩ =
            findFrom (i + 1) rest ⟨some a, c, a.ts, a.lost⟩ := by
          simp [findFrom, hcond]
        have hle : a.ts ≤ e'.ts := Nat.le_of_not_lt hcond
        rcases ih (i + 1) a c with ⟨heq, hall⟩ | ⟨j, e, tl, hget, heq, hlt, hall, hbef⟩
        · left
          refine ⟨by rw [hred, heq], ?_⟩
          intro k h hk
          cases k with
          | zero =>
            have he : e' = h := by simpa [headAt] using hk
            subst he
            exact hle
          | succ k => exact hall k h hk
        · right
          refine ⟨j + 1, e, tl, hget, ?_, hlt, ?_, ?_⟩
          · have h2 : i + 1 + j = i + (j + 1) := by omega
            rw [hred, heq, h2]
          · intro k h hk
            cases k with
            | zero =>
              have he : e' = h := by simpa [headAt] using hk
              subst he
              exact Nat.le_of_lt (Nat.lt_of_lt_of_le hlt hle)
            | succ k => exact hall k h hk
          · intro k h hklt hk
            cases k with
            | zero =>
              have he : e' = h := by simpa [headAt] using hk
              subst he
              exact Nat.lt_of_lt_of_le hlt hle
            | succ k => exact hbef k h (by omega) hk

/-- The scan of findFrom starting from the empty candidate (next = NULL,
next_cpu = -1) either returns the empty result, in which case every CPU is
empty, or selects the head of the j-th CPU, which is no later than every
CPU's oldest record and strictly earlier than the oldest record of every
CPU with a smaller index. -/
theorem findFrom_none_spec (l : List (List Record)) :
    ∀ (i : Nat),
      (findFrom i l ⟨none, -1, 0, 0⟩ = ⟨none, -1, 0, 0⟩ ∧ ∀ k, headAt l k = none) ∨
      (∃ j e tl, l.get? j = some (e :: tl) ∧
        findFrom i l ⟨none, -1, 0, 0⟩ = ⟨some e, Int.ofNat (i + j), e.ts, e.lost⟩ ∧
        (∀ k h, headAt l k = some h → e.ts ≤ h.ts) ∧
        (∀ k h, k < j → headAt l k = some h → e.ts < h.ts)) := by
  induction l with
  | nil =>
    intro i
    left
    exact ⟨rfl, fun _ => rfl⟩
  | cons b rest ih =>
    intro i
    cases b with
    | nil =>
      rcases ih (i + 1) with ⟨heq, hall⟩ | ⟨j, e, tl, hget, heq, hall, hbef⟩
      · left
        refine ⟨by simpa [findFrom] using heq, ?_⟩
        intro k
        cases k with
        | zero => rfl
        | succ k => exact hall k
      · right
        refine ⟨j + 1, e, tl, hget, ?_, ?_, ?_⟩
        · have h2 : i + 1 + j = i + (j + 1) := by omega
          rw [← h2]
          simpa [findFrom] using heq
        · intro k h hk
          cases k with
          | zero => simp [headAt] at hk
          | succ k => exact hall k h hk
        · intro k h hklt hk
          cases k with
          | zero => simp [headAt] at hk
          | succ k => exact hbef k h (by omega) hk
    | cons e' tl' =>
      have hred : findFrom i ((e' :: tl') :: rest) ⟨none, -1, 0, 0⟩ =
          findFrom (i + 1) rest ⟨some e', Int.ofNat i, e'.ts, e'.lost⟩ := by
        simp [findFrom]
      rcases findFrom_some_spec rest (i + 1) e' (Int.ofNat i) with
        ⟨heq, hall⟩ | ⟨j, e, tl, hget, heq, hlt, hall, hbef⟩
      · right
        refine ⟨0, e', tl', rfl, ?_, ?_, ?_⟩
        · rw [hred, heq]
          simp
        · intro k h hk
          cases k with
          | zero =>
            have he : e' = h := by simpa [headAt] using hk
            subst he
            exact Nat.le_refl _
          | succ k => exact hall k h hk
        · intro k h hklt hk
          exact absurd hklt (Nat.not_lt_zero k)
      · right
        refine ⟨j + 1, e, tl, hget, ?_, ?_, ?_⟩
        · have h2 : i + 1 + j = i + (j + 1) := by omega
          rw [hred, heq, h2]
        · intro k h hk
          cases k with
          | zero =>
            have he : e' = h := by simpa [headAt] using hk
            subst he
            exact Nat.le_of_lt hlt
          | succ k => exact hall k h hk
        · intro k h hklt hk
          cases k with
          | zero =>
            have he : e' = h := by simpa [headAt] using hk
            subst he
            exact hlt
          | succ k => exact hbef k h (by omega) hk

/-- Characterization of __find_next_entry: either every CPU is empty and the
result is the empty one, or the result is the oldest record of some CPU j,
minimal among all CPUs' oldest records and strictly minimal among CPUs of
smaller index. -/
theorem find_next_entry_cases (s : Store) :
    (find_next_entry s = ⟨none, -1, 0, 0⟩ ∧ ∀ k, headAt s.cpus k = none) ∨
    (∃ j e tl, s.cpus.get? j = some (e :: tl) ∧
      find_next_entry s = ⟨some e, Int.ofNat j, e.ts, e.lost⟩ ∧
      (∀ k h, headAt s.cpus k = some h → e.ts ≤ h.ts) ∧
      (∀ k h, k < j → headAt s.cpus k = some h → e.ts < h.ts)) := by
  simpa [find_next_entry] using findFrom_none_spec s.cpus 0

/-- is_trace_empty holds exactly when no CPU has an oldest record. -/
theorem is_trace_empty_iff (s : Store) :
    is_trace_empty s = true ↔ ∀ k, headAt s.cpus k = none := by
  unfold is_trace_empty
  rw [List.all_eq_true]
  constructor
  · intro h k
    unfold headAt
    cases hk : s.cpus.get? k with
    | none => rfl
    | some b =>
      have hb := h b (List.get?_mem hk)
      have hbe : b = [] := List.isEmpty_iff.mp hb
      subst hbe
      rfl
  · intro h b hb
    obtain ⟨k, hk⟩ := List.get?_of_mem hb
    have hkk := h k
    unfold headAt at hkk
    rw [hk] at hkk
    have hkk' : b.head? = none := hkk
    have hbe : b = [] := List.head?_eq_none_iff.mp hkk'
    subst hbe
    rfl

/-- getD agrees with a successful get?. -/
theorem getD_of_get? (l : List (List Record)) (n : Nat) (a : List Record)
    (h : l.get? n = some a) : l.getD n [] = a := by
  rw [List.getD_eq_get?, h]
  rfl

/-- Draining the store by repeated find-then-consume lists records in
non-decreasing timestamp order, provided each per-CPU buffer is itself
time-ordered; every drained record is moreover no earlier than any lower
bound on all the oldest records. -/
theorem drainFuel_chain' (fuel : Nat) :
    ∀ (s : Store) (lb : Nat),
      cpusSorted s → (∀ k h, headAt s.cpus k = some h → lb ≤ h.ts) →
      List.Chain' (fun a b => a.ts ≤ b.ts) (drainFuel fuel s) ∧
      ∀ e ∈ drainFuel fuel s, lb ≤ e.ts := by
  induction fuel with
  | zero =>
    intro s lb _ _
    constructor <;> simp [drainFuel]
  | succ fuel ih =>
    intro s lb hs hlb
    rcases find_next_entry_cases s with ⟨heq, _⟩ | ⟨j, e, tl, hget, heq, hall, _⟩
    · constructor <;> simp [drainFuel, heq]
    · have hjlen : j < s.cpus.length := by
        rcases List.get?_eq_some.mp hget with ⟨hlt, _⟩
        exact hlt
      have htail : (s.cpus.getD j []).tail = tl := by
        rw [getD_of_get? _ _ _ hget]
        rfl
      have hdrain : drainFuel (fuel + 1) s = e :: drainFuel fuel (consume_cpu s j) := by
        simp [drainFuel, heq]
      have hscons : (consume_cpu s j).cpus = s.cpus.set j tl := by
        show s.cpus.set j ((s.cpus.getD j []).tail) = s.cpus.set j tl
        rw [htail]
      have hmem : (e :: tl) ∈ s.cpus := List.get?_mem hget
      have hchain : List.Chain' (fun a b => a.ts ≤ b.ts) (e :: tl) := hs _ hmem
      have hs' : cpusSorted (consume_cpu s j) := by
        intro buf hbuf
        rw [hscons] at hbuf
        rcases List.mem_or_eq_of_mem_set hbuf with hb | hb
        · exact hs buf hb
        · subst hb
          exact hchain.tail
      have hlb' : ∀ k h, headAt (consume_cpu s j).cpus k = some h → e.ts ≤ h.ts := by
        intro k h hk
        rw [hscons] at hk
        by_cases hkj : k = j
        · subst hkj
          unfold headAt at hk
          rw [List.get?_set_eq_of_lt _ hjlen] at hk
          have hk' : tl.head? = some h := hk
          exact (List.chain'_cons'.mp hchain).1 h hk'
        · unfold headAt at hk
          rw [List.get?_set_ne _ _ (by omega)] at hk
          exact hall k h hk
      have hIH := ih (consume_cpu s j) e.ts hs' hlb'
      have hhead : headAt s.cpus j = some e := by
        unfold headAt
        rw [hget]
        rfl
      constructor
      · rw [hdrain, List.chain'_cons']
        refine ⟨?_, hIH.1⟩
        intro y hy
        exact hIH.2 y (List.mem_of_mem_head? hy)
      · intro x hx
        rw [hdrain] at hx
        rcases List.mem_cons.mp hx with hx | hx
        · subst hx
          exact hlb j x hhead
        · exact Nat.le_trans (hlb j e hhead) (hIH.2 x hx)

/-- C1: when every CPU buffer is empty, __find_next_entry returns NULL with
next_cpu = -1; when at least one is non-empty, it returns the oldest record
of some CPU j together with that CPU index, its timestamp and its lost-event
count, this record's timestamp being no later than every CPU's oldest record
and strictly earlier than the oldest record of every CPU with a smaller
index (so equal timestamps resolve to the lowest CPU in scan order); and
repeatedly selecting and consuming the returned record drains the store in
non-decreasing timestamp order whenever each per-CPU buffer is time-ordered. -/
theorem C1_merge_selects_global_min (s : Store) (fuel : Nat) :
    (is_trace_empty s = true →
      (find_next_entry s).next = none ∧ (find_next_entry s).next_cpu = -1) ∧
    (is_trace_empty s = false →
      ∃ j e tl, s.cpus.get? j = some (e :: tl) ∧
        find_next_entry s = ⟨some e, Int.ofNat j, e.ts, e.lost⟩ ∧
        (∀ k h, headAt s.cpus k = some h → e.ts ≤ h.ts) ∧
        (∀ k h, k < j → headAt s.cpus k = some h → e.ts < h.ts)) ∧
    (cpusSorted s →
      List.Chain' (fun a b => a.ts ≤ b.ts) (drainFuel fuel s)) := by
  refine ⟨?_, ?_, ?_⟩
  · intro hemp
    rcases find_next_entry_cases s with ⟨heq, _⟩ | ⟨j, e, tl, hget, heq, _, _⟩
    · rw [heq]
      exact ⟨rfl, rfl⟩
    · exfalso
      have hj := (is_trace_empty_iff s).mp hemp j
      unfold headAt at hj
      rw [hget] at hj
      simp at hj
  · intro hemp
    rcases find_next_entry_cases s with ⟨_, hnone⟩ | H
    · exfalso
      rw [(is_trace_empty_iff s).mpr hnone] at hemp
      simp at hemp
    · exact H
  · intro hs
    exact (drainFuel_chain' fuel s 0 hs (fun _ h _ => Nat.zero_le _)).1

/-- Witness for C1 at concrete stores: the empty store yields the empty
result, store0 yields a concrete minimal selection, and draining store0
yields a time-ordered list. -/
theorem C1_merge_selects_global_min_witness :
    ((find_next_entry storeEmpty).next = none ∧
      (find_next_entry storeEmpty).next_cpu = -1) ∧
    (∃ j e tl, store0.cpus.get? j = some (e :: tl) ∧
      find_next_entry store0 = ⟨some e, Int.ofNat j, e.ts, e.lost⟩ ∧
      (∀ k h, headAt store0.cpus k = some h → e.ts ≤ h.ts) ∧
      (∀ k h, k < j → headAt store0.cpus k = some h → e.ts < h.ts)) ∧
    List.Chain' (fun a b => a.ts ≤ b.ts) (drainFuel 3 store0) :=
  ⟨(C1_merge_selects_global_min storeEmpty 0).1 (by decide),
   (C1_merge_selects_global_min store0 3).2.1 (by decide),
   (C1_merge_selects_global_min store0 3).2.2
     (by simp [cpusSorted, store0, List.chain'_cons])⟩

/-- C2: when the formatter for the current record reports a partial line, the
format loop rolls the output buffer's write position back exactly to its
value before the attempt (for an append-only formatter the committed content
is exactly the pre-attempt content), leaves the store untouched (the record
is not consumed), stops immediately whatever fuel remains, and the same
record is the first one found on the next call. Consumption happens only in
the non-partial branch, so only format-verified lines are ever committed. -/
theorem C2_partial_line_rollback (classes : List EventClass) (fuel : Nat)
    (s : Store) (seq : TraceSeq) (cnt : Nat) (ent : Record) (seq' : TraceSeq)
    (hnext : (find_next_entry s).next = some ent)
    (hfmt : print_trace_fmt_line classes seq ent =
      (seq', PrintLine.TRACE_TYPE_PARTIAL_LINE))
    (happend : seq.buf <+: seq'.buf) :
    format_loop classes (fuel + 1) s seq cnt = (s, { seq' with buf := seq.buf }) ∧
    (find_next_entry (format_loop classes (fuel + 1) s seq cnt).1).next = some ent := by
  obtain ⟨t, ht⟩ := happend
  have htake : seq'.buf.take seq.buf.length = seq.buf := by
    rw [← ht]
    exact List.take_left _ _
  have h1 : format_loop classes (fuel + 1) s seq cnt =
      (s, { seq' with buf := seq.buf }) := by
    simp [format_loop, hnext, hfmt, htake]
  refine ⟨h1, ?_⟩
  rw [h1]
  exact hnext

/-- Witness for C2: with no registered class and a capacity-1 output buffer,
formatting the sole record of storeOne overflows, the loop stops with the
store untouched, the write position rolled back to 0, and the same record is
the next one found. -/
theorem C2_partial_line_rollback_witness :
    (find_next_entry storeOne).next = some ⟨0, 5, 0⟩ ∧
    format_loop [] 1 storeOne seq1cap 10 = (storeOne, ⟨[], 1, 0, true⟩) ∧
    (find_next_entry (format_loop [] 1 storeOne seq1cap 10).1).next = some ⟨0, 5, 0⟩ := by
  have h := C2_partial_line_rollback [] 0 storeOne seq1cap 10 ⟨0, 5, 0⟩
    ⟨[], 1, 0, true⟩ (by decide) (by decide) ⟨[], rfl⟩
  exact ⟨by decide, h.1, h.2⟩

/-- A successful find_print_event returns a registered class. -/
theorem find_print_event_mem (classes : List EventClass) (id : Nat)
    (c : EventClass) (h : find_print_event classes id = some c) : c ∈ classes := by
  unfold find_print_event at h
  by_cases hid : id < classes.length
  · rw [if_pos hid] at h
    exact List.get?_mem h
  · rw [if_neg hid] at h
    exact absurd h (by simp)

/-- C5: a record whose id is outside the registered range resolves to no
class, the read path emits the generic fallback line containing that numeric
id instead of failing, and (when the line fits and reaches the requested
amount) the format loop still consumes the record from the store. -/
theorem C5_unknown_id_fallback (classes : List EventClass) (fuel : Nat)
    (s : Store) (seq : TraceSeq) (cnt : Nat) (ent : Record)
    (hnext : (find_next_entry s).next = some ent)
    (hid : classes.length ≤ ent.id)
    (hfull : seq.full = false)
    (hfit : seq.buf.length + (unknown_id_line ent.id).length < seq.size)
    (hstop : cnt ≤ trace_seq_used { seq with buf := seq.buf ++ unknown_id_line ent.id }) :
    find_print_event classes ent.id = none ∧
    print_trace_fmt_line classes seq ent =
      ({ seq with buf := seq.buf ++ unknown_id_line ent.id },
        PrintLine.TRACE_TYPE_HANDLED) ∧
    format_loop classes (fuel + 1) s seq cnt =
      (consume_cpu s (find_next_entry s).next_cpu.toNat,
        { seq with buf := seq.buf ++ unknown_id_line ent.id }) := by
  have hfind : find_print_event classes ent.id = none := by
    unfold find_print_event
    rw [if_neg (by omega)]
  have hprintf : trace_seq_printf seq (unknown_id_line ent.id) =
      { seq with buf := seq.buf ++ unknown_id_line ent.id } := by
    unfold trace_seq_printf
    rw [if_neg (by simp [hfull]), if_pos hfit]
  have hline : print_trace_fmt_line classes seq ent =
      ({ seq with buf := seq.buf ++ unknown_id_line ent.id },
        PrintLine.TRACE_TYPE_HANDLED) := by
    simp [print_trace_fmt_line, hfind, trace_seq_has_overflowed, hfull, hprintf,
      trace_handle_return]
  refine ⟨hfind, hline, ?_⟩
  simp [format_loop, hnext, hline, hstop]

/-- Witness for C5: id 5 with a single registered class falls back to the
"Unknown id 5" line and the record is consumed. -/
theorem C5_unknown_id_fallback_witness :
    find_print_event [cls0] 5 = none ∧
    print_trace_fmt_line [cls0] trace_seq_init ⟨5, 9, 0⟩ =
      ({ trace_seq_init with buf := trace_seq_init.buf ++ unknown_id_line 5 },
        PrintLine.TRACE_TYPE_HANDLED) ∧
    format_loop [cls0] 1 storeUnknown trace_seq_init 1 =
      (consume_cpu storeUnknown (find_next_entry storeUnknown).next_cpu.toNat,
        { trace_seq_init with buf := trace_seq_init.buf ++ unknown_id_line 5 }) :=
  C5_unknown_id_fallback [cls0] 0 storeUnknown trace_seq_init 1 ⟨5, 9, 0⟩
    (by decide) (by decide) (by decide) (by decide) (by decide)

/-- C3: a non-blocking read on a globally empty store with no leftover text
returns -EAGAIN immediately: no wait is performed (waits = 0) and the store
is returned untouched (no record consumed, no cursor advanced). -/
theorem C3_nonblock_empty_eagain (classes : List EventClass)
    (wait : Nat → Int × Store) (fuelW fuelF fuelR : Nat)
    (s : Store) (seq : TraceSeq) (cnt : Nat)
    (hempty : is_trace_empty s = true)
    (hnoleft : trace_seq_used seq ≤ seq.readpos) :
    trace_read_pipe classes true false wait (fuelW + 1) fuelF (fuelR + 1) s seq cnt =
      some ⟨-11, trace_seq_init, s, 0⟩ := by
  simp [trace_read_pipe, trace_seq_to_user, hnoleft, read_loop, trace_wait_pipe, hempty]

/-- Witness for C3 on the concrete empty store. -/
theorem C3_nonblock_empty_eagain_witness :
    trace_read_pipe [] true false (fun _ => (0, storeEmpty)) 1 0 1 storeEmpty
        trace_seq_init 7 =
      some ⟨-11, trace_seq_init, storeEmpty, 0⟩ :=
  C3_nonblock_empty_eagain [] (fun _ => (0, storeEmpty)) 0 0 0 storeEmpty
    trace_seq_init 7 (by decide) (by decide)

/-- C8: when the session's output buffer still holds unflushed previously
formatted text, the read call copies min(used - readpos, cnt) ≤ cnt bytes,
advances only the read cursor, and returns immediately with the store
exactly as it was and no wait performed: nothing is peeked, consumed or
waited for. -/
theorem C8_leftover_flush (classes : List EventClass) (nonblock fatal : Bool)
    (wait : Nat → Int × Store) (fuelW fuelF fuelR : Nat)
    (s : Store) (seq : TraceSeq) (cnt : Nat)
    (hleft : seq.readpos < trace_seq_used seq) :
    trace_read_pipe classes nonblock fatal wait fuelW fuelF fuelR s seq cnt =
      some ⟨Int.ofNat (min (trace_seq_used seq - seq.readpos) cnt),
        { seq with readpos := seq.readpos + min (trace_seq_used seq - seq.readpos) cnt },
        s, 0⟩ ∧
    min (trace_seq_used seq - seq.readpos) cnt ≤ cnt := by
  have hq : trace_seq_to_user seq cnt =
      (Int.ofNat (min (trace_seq_used seq - seq.readpos) cnt),
        { seq with readpos := seq.readpos + min (trace_seq_used seq - seq.readpos) cnt }) := by
    unfold trace_seq_to_user
    rw [if_neg (by omega)]
  have hne : Int.ofNat (min (trace_seq_used seq - seq.readpos) cnt) ≠ -16 := by
    have h0 : (0 : Int) ≤ Int.ofNat (min (trace_seq_used seq - seq.readpos) cnt) :=
      Int.ofNat_nonneg _
    intro hcon
    rw [hcon] at h0
    exact absurd h0 (by decide)
  refine ⟨?_, Nat.min_le_right _ _⟩
  unfold trace_read_pipe
  simp only [hq]
  rw [if_pos hne]

/-- Witness for C8: one unflushed byte is delivered with the store and wait
count untouched. -/
theorem C8_leftover_flush_witness :
    trace_read_pipe [] false false (fun _ => (0, storeEmpty)) 1 1 1 store0 seqLeft 9 =
      some ⟨Int.ofNat (min (trace_seq_used seqLeft - seqLeft.readpos) 9),
        { seqLeft with readpos := seqLeft.readpos + min (trace_seq_used seqLeft - seqLeft.readpos) 9 },
        store0, 0⟩ ∧
    min (trace_seq_used seqLeft - seqLeft.readpos) 9 ≤ 9 :=
  C8_leftover_flush [] false false (fun _ => (0, storeEmpty)) 1 1 1 store0 seqLeft 9
    (by decide)

/-- C6: a fatal termination request pending at the start of a blocking read
aborts before any wait (waits = 0) and returns the pending -EBUSY, which is
negative and distinct from the would-block -EAGAIN and from the zero-byte
outcome, with the store untouched; and when the wait primitive itself is
interrupted (returning a negative value such as -EINTR), that value is
propagated to the caller unchanged after a single wait, with the store
exactly as the producers left it and still no record consumed. -/
theorem C6_fatal_cancellation (classes : List EventClass)
    (wait : Nat → Int × Store) (fuelW fuelF fuelR : Nat)
    (s s' : Store) (seq : TraceSeq) (cnt : Nat) (r0 : Int)
    (hnoleft : trace_seq_used seq ≤ seq.readpos)
    (hempty : is_trace_empty s = true)
    (hwait : wait 0 = (r0, s'))
    (hr0 : r0 < 0) :
    trace_read_pipe classes false true wait fuelW fuelF (fuelR + 1) s seq cnt =
      some ⟨-16, trace_seq_init, s, 0⟩ ∧
    trace_read_pipe classes false false wait (fuelW + 1) fuelF (fuelR + 1) s seq cnt =
      some ⟨r0, trace_seq_init, s', 1⟩ ∧
    ((-16 : Int) ≠ -11 ∧ (-16 : Int) ≠ 0 ∧ (-16 : Int) < 0 ∧ r0 ≠ 0 ∧ r0 < 0) := by
  have h1 : r0 ≠ 0 := by omega
  have h2 : r0 ≤ 0 := by omega
  refine ⟨?_, ?_, by decide, by decide, by decide, h1, hr0⟩
  · simp [trace_read_pipe, trace_seq_to_user, hnoleft, read_loop]
  · simp [trace_read_pipe, trace_seq_to_user, hnoleft, read_loop, trace_wait_pipe,
      hempty, hwait, h1, h2]

/-- Witness for C6 with the wait primitive returning -EINTR = -4, which is
also distinct from -EAGAIN. -/
theorem C6_fatal_cancellation_witness :
    (trace_read_pipe [] false true (fun _ => (-4, storeEmpty)) 1 0 1 storeEmpty
        trace_seq_init 5 =
      some ⟨-16, trace_seq_init, storeEmpty, 0⟩ ∧
    trace_read_pipe [] false false (fun _ => (-4, storeEmpty)) 2 0 1 storeEmpty
        trace_seq_init 5 =
      some ⟨-4, trace_seq_init, storeEmpty, 1⟩ ∧
    ((-16 : Int) ≠ -11 ∧ (-16 : Int) ≠ 0 ∧ (-16 : Int) < 0 ∧ (-4 : Int) ≠ 0 ∧
      (-4 : Int) < 0)) ∧
    (-4 : Int) ≠ -11 :=
  ⟨C6_fatal_cancellation [] (fun _ => (-4, storeEmpty)) 1 0 1 storeEmpty storeEmpty
      trace_seq_init 5 (-4) (by decide) (by decide) rfl (by decide),
    by decide⟩

/-- trace_seq_printf never changes the capacity and keeps the committed
content within max(previous length, size - 1). -/
theorem trace_seq_printf_good (seq : TraceSeq) (str : List Char) :
    (trace_seq_printf seq str).size = seq.size ∧
    (trace_seq_printf seq str).buf.length ≤ max seq.buf.length (seq.size - 1) := by
  unfold trace_seq_printf
  by_cases hf : seq.full = true
  · rw [if_pos hf]
    exact ⟨rfl, le_max_left _ _⟩
  · rw [if_neg hf]
    by_cases hfit : seq.buf.length + str.length < seq.size
    · rw [if_pos hfit]
      refine ⟨rfl, ?_⟩
      simp only [List.length_append]
      omega
    · rw [if_neg hfit]
      exact ⟨rfl, le_max_left _ _⟩

/-- print_trace_fmt_line respects the trace_seq discipline whenever every
registered formatter does. -/
theorem print_line_good (classes : List EventClass) (hg : good_classes classes)
    (seq : TraceSeq) (ent : Record) :
    ((print_trace_fmt_line classes seq ent).1).size = seq.size ∧
    ((print_trace_fmt_line classes seq ent).1).buf.length ≤
      max seq.buf.length (seq.size - 1) := by
  by_cases hov : trace_seq_has_overflowed seq = true
  · have heq : print_trace_fmt_line classes seq ent =
        (seq, PrintLine.TRACE_TYPE_PARTIAL_LINE) := by
      simp [print_trace_fmt_line, hov]
    rw [heq]
    exact ⟨rfl, le_max_left _ _⟩
  · cases hfind : find_print_event classes ent.id with
    | some c =>
      have heq : print_trace_fmt_line classes seq ent = c.format seq ent := by
        simp [print_trace_fmt_line, hov, hfind]
      rw [heq]
      exact hg c (find_print_event_mem classes ent.id c hfind) seq ent
    | none =>
      have heq : print_trace_fmt_line classes seq ent =
          (trace_seq_printf seq (unknown_id_line ent.id),
            trace_handle_return (trace_seq_printf seq (unknown_id_line ent.id))) := by
        simp [print_trace_fmt_line, hov, hfind]
      rw [heq]
      exact trace_seq_printf_good seq (unknown_id_line ent.id)

/-- The format loop, run over formatters that respect the trace_seq
discipline, never grows the committed content past max(initial length,
capacity - 1) and never changes the capacity. -/
theorem format_loop_good (classes : List EventClass) (hg : good_classes classes) :
    ∀ (fuel : Nat) (s : Store) (seq : TraceSeq) (cnt : Nat),
      ((format_loop classes fuel s seq cnt).2).size = seq.size ∧
      ((format_loop classes fuel s seq cnt).2).buf.length ≤
        max seq.buf.length (seq.size - 1) := by
  intro fuel
  induction fuel with
  | zero =>
    intro s seq cnt
    exact ⟨rfl, le_max_left _ _⟩
  | succ fuel ih =>
    intro s seq cnt
    cases hnext : (find_next_entry s).next with
    | none =>
      have heq : format_loop classes (fuel + 1) s seq cnt = (s, seq) := by
        simp [format_loop, hnext]
      rw [heq]
      exact ⟨rfl, le_max_left _ _⟩
    | some ent =>
      obtain ⟨hsz, hlen⟩ := print_line_good classes hg seq ent
      by_cases hpart : (print_trace_fmt_line classes seq ent).2 =
          PrintLine.TRACE_TYPE_PARTIAL_LINE
      · have heq : format_loop classes (fuel + 1) s seq cnt =
            (s, { (print_trace_fmt_line classes seq ent).1 with
                  buf := (print_trace_fmt_line classes seq ent).1.buf.take seq.buf.length }) := by
          simp [format_loop, hnext, hpart]
        rw [heq]
        refine ⟨hsz, ?_⟩
        simp only [List.length_take]
        omega
      · by_cases hstop : cnt ≤ trace_seq_used (print_trace_fmt_line classes seq ent).1
        · have heq : format_loop classes (fuel + 1) s seq cnt =
              ((if (print_trace_fmt_line classes seq ent).2 =
                    PrintLine.TRACE_TYPE_NO_CONSUME then s
                else consume_cpu s (find_next_entry s).next_cpu.toNat),
                (print_trace_fmt_line classes seq ent).1) := by
            simp [format_loop, hnext, hpart, hstop]
          rw [heq]
          exact ⟨hsz, hlen⟩
        · have heq : format_loop classes (fuel + 1) s seq cnt =
              format_loop classes fuel
                (if (print_trace_fmt_line classes seq ent).2 =
                    PrintLine.TRACE_TYPE_NO_CONSUME then s
                  else consume_cpu s (find_next_entry s).next_cpu.toNat)
                (print_trace_fmt_line classes seq ent).1 cnt := by
            simp [format_loop, hnext, hpart, hstop]
          rw [heq]
          obtain ⟨ihsz, ihlen⟩ := ih
            (if (print_trace_fmt_line classes seq ent).2 =
                PrintLine.TRACE_TYPE_NO_CONSUME then s
              else consume_cpu s (find_next_entry s).next_cpu.toNat)
            (print_trace_fmt_line classes seq ent).1 cnt
          refine ⟨by rw [ihsz, hsz], ?_⟩
          rw [hsz] at ihlen
          omega

/-- trace_seq_to_user either reports -EBUSY or delivers exactly
min(used - readpos, cnt) bytes. -/
theorem trace_seq_to_user_cases (s : TraceSeq) (cnt : Nat) :
    (trace_seq_to_user s cnt).1 = -16 ∨
    (trace_seq_to_user s cnt).1 =
      Int.ofNat (min (trace_seq_used s - s.readpos) cnt) := by
  unfold trace_seq_to_user
  by_cases h : trace_seq_used s ≤ s.readpos
  · rw [if_pos h]
    left
    rfl
  · rw [if_neg h]
    right
    rfl

/-- Every outcome of the waitagain loop returns at most PAGE_SIZE - 1: the
error and zero-byte outcomes are non-positive and the delivery outcome is
bounded by the clamped count. -/
theorem read_loop_sret_le (classes : List EventClass) (nonblock fatal : Bool)
    (wait : Nat → Int × Store) (fuelW fuelF : Nat) :
    ∀ (fuelR : Nat) (s : Store) (seq : TraceSeq) (cnt w : Nat) (r : ReadResult),
      read_loop classes nonblock fatal wait fuelW fuelF fuelR s seq cnt w = some r →
      r.sret ≤ Int.ofNat (PAGE_SIZE - 1) := by
  intro fuelR
  induction fuelR with
  | zero =>
    intro s seq cnt w r hr
    simp [read_loop] at hr
  | succ fuelR ih =>
    intro s seq cnt w r hr
    simp only [read_loop] at hr
    by_cases hfat : fatal = true
    · rw [if_pos hfat] at hr
      have h := Option.some.inj hr
      rw [← h]
      show (-16 : Int) ≤ Int.ofNat (PAGE_SIZE - 1)
      decide
    · rw [if_neg hfat] at hr
      cases hw : trace_wait_pipe nonblock wait fuelW s w with
      | none =>
        rw [hw] at hr
        simp at hr
      | some t =>
        obtain ⟨ret, s1, w1⟩ := t
        rw [hw] at hr
        simp only [] at hr
        by_cases hret : ret ≤ 0
        · rw [if_pos hret] at hr
          have h := Option.some.inj hr
          rw [← h]
          show ret ≤ Int.ofNat (PAGE_SIZE - 1)
          have h4 : Int.ofNat (PAGE_SIZE - 1) = 4095 := rfl
          rw [h4]
          omega
        · rw [if_neg hret] at hr
          by_cases hemp : is_trace_empty s1 = true
          · rw [if_pos hemp] at hr
            have h := Option.some.inj hr
            rw [← h]
            show (0 : Int) ≤ Int.ofNat (PAGE_SIZE - 1)
            decide
          · rw [if_neg hemp] at hr
            generalize hC : (if PAGE_SIZE ≤ cnt then PAGE_SIZE - 1 else cnt) = cnt1 at hr
            have hCle : cnt1 ≤ PAGE_SIZE - 1 := by
              rw [← hC]
              have hps : PAGE_SIZE = 4096 := rfl
              split <;> omega
            have hcases := trace_seq_to_user_cases
              (format_loop classes fuelF s1 trace_seq_init cnt1).2 cnt1
            by_cases hq1 : (trace_seq_to_user
                (format_loop classes fuelF s1 trace_seq_init cnt1).2 cnt1).1 = -16
            · rw [if_pos hq1] at hr
              exact ih _ _ _ _ _ hr
            · rw [if_neg hq1] at hr
              have h := Option.some.inj hr
              rw [← h]
              rcases hcases with h16 | hof
              · exact absurd h16 hq1
              · show (trace_seq_to_user
                    (format_loop classes fuelF s1 trace_seq_init cnt1).2 cnt1).1 ≤
                  Int.ofNat (PAGE_SIZE - 1)
                rw [hof]
                exact Int.ofNat_le.mpr (Nat.le_trans (Nat.min_le_right _ _) hCle)

/-- C10: a read call that reaches the format loop clamps the effective
requested length to PAGE_SIZE - 1; starting from the freshly reset output
buffer the loop never commits more than PAGE_SIZE - 1 bytes of new output
(for formatters respecting the trace_seq printf discipline); and the
waitagain loop never returns more than PAGE_SIZE - 1 to the caller, however
large the caller's requested length. -/
theorem C10_page_clamp (classes : List EventClass) (hg : good_classes classes) :
    (∀ fuelF s cnt,
      ((format_loop classes fuelF s trace_seq_init cnt).2).buf.length ≤ PAGE_SIZE - 1) ∧
    (∀ nonblock fatal wait fuelW fuelF fuelR s seq cnt w r,
      read_loop classes nonblock fatal wait fuelW fuelF fuelR s seq cnt w = some r →
      r.sret ≤ Int.ofNat (PAGE_SIZE - 1)) ∧
    (∀ cnt, PAGE_SIZE ≤ cnt →
      (if PAGE_SIZE ≤ cnt then PAGE_SIZE - 1 else cnt) = PAGE_SIZE - 1) := by
  refine ⟨?_, ?_, ?_⟩
  · intro fuelF s cnt
    have h := (format_loop_good classes hg fuelF s trace_seq_init cnt).2
    simpa [trace_seq_init] using h
  · intro nonblock fatal wait fuelW fuelF fuelR s seq cnt w r hr
    exact read_loop_sret_le classes nonblock fatal wait fuelW fuelF fuelR s seq cnt w r hr
  · intro cnt h
    rw [if_pos h]

/-- Witness for C10 with the empty class table (vacuously disciplined) and a
requested length larger than PAGE_SIZE. -/
theorem C10_page_clamp_witness :
    ((format_loop [] 1 storeOne trace_seq_init 0).2).buf.length ≤ PAGE_SIZE - 1 ∧
    (if PAGE_SIZE ≤ 5000 then PAGE_SIZE - 1 else 5000) = PAGE_SIZE - 1 :=
  ⟨(C10_page_clamp [] (by simp [good_classes])).1 1 storeOne 0,
   (C10_page_clamp [] (by simp [good_classes])).2.2 5000 (by decide)⟩

/-- The id-assignment loop started at counter i gives the k-th descriptor
the id i + k and changes nothing else about it. -/
theorem assign_ids_from_get? (l : List EventClass) :
    ∀ (i k : Nat),
      (assign_ids_from i l).get? k = (l.get? k).map (fun c => { c with id := i + k }) := by
  induction l with
  | nil =>
    intro i k
    simp [assign_ids_from]
  | cons c rest ih =>
    intro i k
    cases k with
    | zero => simp [assign_ids_from]
    | succ k =>
      have h2 : i + 1 + k = i + (k + 1) := by omega
      have h := ih (i + 1) k
      rw [h2] at h
      simpa [assign_ids_from] using h

/-- The id-assignment loop preserves the number of descriptors. -/
theorem assign_ids_from_length (l : List EventClass) :
    ∀ i, (assign_ids_from i l).length = l.length := by
  induction l with
  | nil => intro i; rfl
  | cons c rest ih => intro i; simp [assign_ids_from, ih]

/-- On a successful startup (class count in range, all external collaborators
succeeding), print_event_init reduces to the success outcome. -/
theorem print_event_init_success (classes : List EventClass)
    (hK1 : 1 ≤ classes.length)
    (hK2 : classes.length < PRINT_EVENT_ID_MAX 1) :
    print_event_init 1 classes envAllOk =
      ⟨0, assign_ids classes, true, true,
        [InitStep.SAlloc, InitStep.SPublishDir, InitStep.SPublishNode,
          InitStep.SRegister]⟩ := by
  simp only [print_event_init]
  rw [if_neg (by omega), if_neg (by omega), if_neg (by decide), if_neg (by decide),
    if_neg (by decide), if_neg (by decide)]

/-- C9: after a successful startup with K registered classes, the i-th
descriptor in registration order carries id = i, find_print_event(i) returns
exactly that descriptor for every i < K, and find_print_event returns none
for every id ≥ K. -/
theorem C9_registry_round_trip (classes : List EventClass) (env : InitEnv)
    (hK1 : 1 ≤ classes.length)
    (hK2 : classes.length < PRINT_EVENT_ID_MAX 1)
    (henv : env = envAllOk) :
    (print_event_init 1 classes env).ret = 0 ∧
    (∀ i (hi : i < classes.length),
      (print_event_init 1 classes env).classes.get? i =
        some { classes.get ⟨i, hi⟩ with id := i } ∧
      find_print_event (print_event_init 1 classes env).classes i =
        some { classes.get ⟨i, hi⟩ with id := i }) ∧
    (∀ id, classes.length ≤ id →
      find_print_event (print_event_init 1 classes env).classes id = none) := by
  subst henv
  have hs := print_event_init_success classes hK1 hK2
  have hret : (print_event_init 1 classes envAllOk).ret = 0 := by rw [hs]
  have hcl : (print_event_init 1 classes envAllOk).classes = assign_ids classes := by
    rw [hs]
  have hlen : (assign_ids classes).length = classes.length :=
    assign_ids_from_length classes 0
  refine ⟨hret, ?_, ?_⟩
  · intro i hi
    have hget : (assign_ids classes).get? i = some { classes.get ⟨i, hi⟩ with id := i } := by
      unfold assign_ids
      rw [assign_ids_from_get? classes 0 i, List.get?_eq_get hi]
      simp
    rw [hcl]
    refine ⟨hget, ?_⟩
    unfold find_print_event
    rw [if_pos (by omega)]
    exact hget
  · intro id hid
    rw [hcl]
    unfold find_print_event
    rw [if_neg (by omega)]

/-- Witness for C9 with a single registered class. -/
theorem C9_registry_round_trip_witness :
    (print_event_init 1 [cls0] envAllOk).ret = 0 ∧
    (print_event_init 1 [cls0] envAllOk).classes.get? 0 = some { cls0 with id := 0 } ∧
    find_print_event (print_event_init 1 [cls0] envAllOk).classes 0 =
      some { cls0 with id := 0 } ∧
    find_print_event (print_event_init 1 [cls0] envAllOk).classes 3 = none := by
  have h := C9_registry_round_trip [cls0] envAllOk (by decide) (by decide) rfl
  exact ⟨h.1, (h.2.1 0 (by decide)).1, (h.2.1 0 (by decide)).2, h.2.2 3 (by decide)⟩

/-- C4 counterexample: with an 8-bit id field, every external collaborator
succeeding and exactly 255 registered classes (a count the claim says must
succeed, as 1 ≤ 255 ≤ 255), print_event_init fails with -EINVAL: the code
rejects num_class ≥ PRINT_EVENT_ID_MAX, i.e. already at count 255. -/
theorem C4_id_limit_boundary_cex :
    classes255.length = 255 ∧
    (print_event_init 1 classes255 envAllOk).ret = -22 ∧
    ¬ (print_event_init 1 classes255 envAllOk).ret = 0 := by
  have hlen : classes255.length = 255 := by simp only [classes255, List.length_replicate]
  have hfail : (print_event_init 1 classes255 envAllOk).ret = -22 := by
    simp only [print_event_init]
    rw [if_neg (by omega), if_pos (by rw [hlen]; decide)]
  refine ⟨hlen, hfail, by rw [hfail]; decide⟩

/-- C4 amended: for an 8-bit id field with all external startup steps
succeeding, print_event_init succeeds exactly for class counts K with
1 ≤ K ≤ 254 = PRINT_EVENT_ID_MAX - 1 and fails with -EINVAL for every
K ≥ 255 = PRINT_EVENT_ID_MAX (not only K > 255); the violation is a startup
failure that leaves the store unallocated and the interface unpublished,
never a runtime one. -/
theorem C4_id_limit_amended (classes : List EventClass) (env : InitEnv)
    (henv : env = envAllOk) :
    (1 ≤ classes.length → classes.length < PRINT_EVENT_ID_MAX 1 →
      (print_event_init 1 classes env).ret = 0) ∧
    (PRINT_EVENT_ID_MAX 1 ≤ classes.length →
      (print_event_init 1 classes env).ret = -22 ∧
      (print_event_init 1 classes env).store_allocated = false ∧
      (print_event_init 1 classes env).proc_published = false) := by
  subst henv
  constructor
  · intro h1 h2
    rw [print_event_init_success classes h1 h2]
  · intro h
    have hmax : PRINT_EVENT_ID_MAX 1 = 255 := rfl
    simp only [print_event_init]
    rw [if_neg (by omega), if_pos h]
    exact ⟨rfl, rfl, rfl⟩

/-- Witness for C4 amended at counts 1 and 255. -/
theorem C4_id_limit_amended_witness :
    (print_event_init 1 [cls0] envAllOk).ret = 0 ∧
    (print_event_init 1 classes255 envAllOk).ret = -22 ∧
    (print_event_init 1 classes255 envAllOk).store_allocated = false ∧
    (print_event_init 1 classes255 envAllOk).proc_published = false :=
  ⟨(C4_id_limit_amended [cls0] envAllOk rfl).1 (by decide) (by decide),
   (C4_id_limit_amended classes255 envAllOk rfl).2
     (by rw [show classes255.length = 255 from by simp only [classes255, List.length_replicate]]; decide)⟩

/-- C7 counterexample: on a fully successful startup with one registered
class, the externally visible step order is allocation, then interface
publication, then registration (id assignment and store binding) — so
registration does not precede store allocation, contrary to the claimed
registration-allocation-publication order. -/
theorem C7_startup_order_cex :
    (print_event_init 1 [cls0] envAllOk).steps =
      [InitStep.SAlloc, InitStep.SPublishDir, InitStep.SPublishNode,
        InitStep.SRegister] ∧
    ¬ ((print_event_init 1 [cls0] envAllOk).steps.indexOf InitStep.SRegister <
        (print_event_init 1 [cls0] envAllOk).steps.indexOf InitStep.SAlloc) := by
  refine ⟨by decide, by decide⟩

/-- C7 amended: startup validates the class count, then allocates the store,
then publishes the proc interface, then registers the classes (assigns ids
and binds the store), in that order; if any step fails, startup returns an
error having freed the store and unpublished the interface, leaving the
subsystem fully uninitialized rather than half-alive. -/
theorem C7_startup_rollback_amended (idBytes : Nat) (classes : List EventClass)
    (env : InitEnv) (h0 : classes ≠ []) :
    ((print_event_init idBytes classes env).ret = 0 →
      (print_event_init idBytes classes env).steps =
        [InitStep.SAlloc, InitStep.SPublishDir, InitStep.SPublishNode,
          InitStep.SRegister] ∧
      (print_event_init idBytes classes env).store_allocated = true ∧
      (print_event_init idBytes classes env).proc_published = true) ∧
    ((print_event_init idBytes classes env).ret ≠ 0 →
      (print_event_init idBytes classes env).store_allocated = false ∧
      (print_event_init idBytes classes env).proc_published = false) := by
  have hlen : ¬ classes.length = 0 := by
    intro h
    exact h0 (List.length_eq_zero.mp h)
  simp only [print_event_init]
  rw [if_neg hlen]
  by_cases h1 : PRINT_EVENT_ID_MAX idBytes ≤ classes.length
  · rw [if_pos h1]
    exact ⟨fun h => absurd (show (-22 : Int) = 0 from h) (by decide), fun _ => ⟨rfl, rfl⟩⟩
  · rw [if_neg h1]
    by_cases h2 : env.lookup_ok = false
    · rw [if_pos h2]
      exact ⟨fun h => absurd (show (-19 : Int) = 0 from h) (by decide), fun _ => ⟨rfl, rfl⟩⟩
    · rw [if_neg h2]
      by_cases h3 : env.alloc_ok = false
      · rw [if_pos h3]
        exact ⟨fun h => absurd (show (-12 : Int) = 0 from h) (by decide), fun _ => ⟨rfl, rfl⟩⟩
      · rw [if_neg h3]
        by_cases h4 : env.mkdir_ok = false
        · rw [if_pos h4]
          exact ⟨fun h => absurd (show (-12 : Int) = 0 from h) (by decide), fun _ => ⟨rfl, rfl⟩⟩
        · rw [if_neg h4]
          by_cases h5 : env.create_ok = false
          · rw [if_pos h5]
            exact ⟨fun h => absurd (show (-12 : Int) = 0 from h) (by decide), fun _ => ⟨rfl, rfl⟩⟩
          · rw [if_neg h5]
            exact ⟨fun _ => ⟨rfl, rfl, rfl⟩, fun h => absurd rfl h⟩

/-- Witness for C7 amended on a success and on a publication failure. -/
theorem C7_startup_rollback_amended_witness :
    ((print_event_init 1 [cls0] envAllOk).ret = 0 →
      (print_event_init 1 [cls0] envAllOk).steps =
        [InitStep.SAlloc, InitStep.SPublishDir, InitStep.SPublishNode,
          InitStep.SRegister] ∧
      (print_event_init 1 [cls0] envAllOk).store_allocated = true ∧
      (print_event_init 1 [cls0] envAllOk).proc_published = true) ∧
    ((print_event_init 1 [cls0] ⟨true, true, true, false⟩).ret ≠ 0 →
      (print_event_init 1 [cls0] ⟨true, true, true, false⟩).store_allocated = false ∧
      (print_event_init 1 [cls0] ⟨true, true, true, false⟩).proc_published = false) :=
  ⟨(C7_startup_rollback_amended 1 [cls0] envAllOk (by simp [cls0])).1,
   (C7_startup_rollback_amended 1 [cls0] ⟨true, true, true, false⟩ (by simp [cls0])).2⟩

end Trace
